import Mathlib

/-!
Verification of the embedding-vector store in `llm/embeddings.py`
(class `Collection` and dataclass `Entry`).

Shallow embedding conventions:
* The SQLite database is a `Db` value threaded explicitly through every
  operation; operations return a `Res α` bundling the possibly-failing
  result (`Except String α`: Python exceptions become `.error`), the
  updated `Collection` object (Python mutates `self`), the updated `Db`,
  and a trace of storage effects (`Effect`) used for frame claims.
* Vectors are `List ℚ`.  The binary codec (`llm.encode`/`llm.decode`) is
  an external collaborator outside this module whose round trip is assumed
  correct, so the `embedding` blob column is modelled as the vector itself
  and encode/decode as the identity.
* `json.dumps`/`json.loads` on metadata dictionaries are likewise an
  external, round-tripping codec: the nullable `metadata` text column is
  modelled as `Option Metadata` where `Metadata` is a finite association
  list standing in for a Python dict (the empty list is the empty dict,
  which is falsy).
* `llm.cosine_similarity` lives outside this module; every search
  operation is parametrised by the scoring function
  `cos : List ℚ → List ℚ → ℚ` it computes (first argument the stored
  vector, second the query vector, matching the call
  `cosine_similarity(other_vector, vector)` in the source).
* The model registry `llm.get_embedding_model` is an injected
  `Registry := String → Option EmbeddingModel`.
* The SQL `order by score desc limit n` over the scored rows is modelled
  by sorting the filtered rows with `List.insertionSort` under the
  relation "score of the left is at least score of the right" and taking
  the first `n`; tie order among equal scores is unspecified by SQL and
  any sort realises the contract.
-/

/-- A Python dict used as metadata, modelled as an association list.
The empty dict (empty list) is falsy in Python. -/
def Metadata : Type := List (String × String)

instance : DecidableEq Metadata := by
  unfold Metadata; infer_instance

/-- Python truthiness of an `Optional[Dict]`: `None` and `{}` are falsy. -/
def truthyMeta : Option Metadata → Bool
  | none => false
  | some [] => false
  | some (_ :: _) => true

/-- Python truthiness of an `Optional[str]`: `None` and `""` are falsy. -/
def truthyStr : Option String → Bool
  | none => false
  | some s => !(s == "")

/-- The embedding model abstraction (`llm.models.EmbeddingModel`), an
external collaborator: an identifier, single and multi embedding, and an
optional preferred batch size (`batch_size`). -/
structure EmbeddingModel where
  model_id : String
  embed : String → List ℚ
  embed_multi : List String → List (List ℚ)
  batch_size : Option Nat

/-- The model registry (`llm.get_embedding_model`), an external
collaborator: `none` models `UnknownModelError`. -/
def Registry : Type := String → Option EmbeddingModel

/-- One row of the `collections` table: surrogate `id`, unique `name`,
and the `model` identifier column. -/
structure CollectionRow where
  id : Nat
  name : String
  model : String
deriving DecidableEq

/-- One row of the `embeddings` table, keyed by `(collection_id, id)`,
with the encoded `embedding` blob (modelled as the vector itself),
nullable `content` and nullable serialized `metadata`. -/
structure EmbeddingRow where
  collection_id : Nat
  id : String
  embedding : List ℚ
  content : Option String
  metadata : Option Metadata
deriving DecidableEq

/-- Storage effects traced by every operation, for frame claims:
row reads of `collections`, inserts into `collections`, reads of
`embeddings` rows (`rows_where`), batched or single inserts into
`embeddings` (with the number of rows), and the similarity select. -/
inductive Effect where
  | readCollections
  | insertCollection
  | readEmbeddings
  | insertEmbedding (n : Nat)
  | queryEmbeddings
deriving DecidableEq

/-- The SQLite database state: the two tables, the next surrogate key
`last_pk` would hand out, and whether the schema migrations have run
(`db["collections"].exists()`). -/
structure Db where
  collections : List CollectionRow
  embeddings : List EmbeddingRow
  nextId : Nat
  schemaCreated : Bool
deriving DecidableEq

/-- The in-memory `Collection` object: `name`, the cached model object
`_model`, the model identifier `_model_id`, and the cached surrogate key
`_id` (`None` while unresolved). -/
structure Collection where
  name : String
  _model : Option EmbeddingModel
  _model_id : Option String
  _id : Option Nat

/-- Result of one operation: the value or the raised exception message,
the updated `self`, the updated database, and the effect trace.  State
mutated before an exception persists, as in Python. -/
structure Res (α : Type) where
  val : Except String α
  coll : Collection
  db : Db
  eff : List Effect

/-- `Collection.max_batch_size = 100`. -/
def Collection.max_batch_size : Nat := 100

/-- `Collection.model()`: return `_model` if set, else look `_model_id`
up in the registry; `ValueError` when no (truthy) `_model_id` was given
or the registry does not know it.  Caches the looked-up model in
`_model`. -/
def Collection.model (reg : Registry) (c : Collection) :
    Except String (EmbeddingModel × Collection) :=
  match c._model with
  | some m => .ok (m, c)
  | none =>
    if !truthyStr c._model_id then
      .error "No model_id specified"
    else
      match reg (c._model_id.getD "") with
      | none => .error "No model_id specified and no model found with that name"
      | some m => .ok (m, { c with _model := some m })

/-- `embeddings_migrations.apply` guarded by
`self.db["collections"].exists()`: external schema bookkeeping, modelled
as setting the schema flag; it creates no rows. -/
def migrate (db : Db) : Db :=
  if db.schemaCreated then db else { db with schemaCreated := true }

theorem migrate_collections (db : Db) : (migrate db).collections = db.collections := by
  unfold migrate; split <;> rfl

theorem migrate_embeddings (db : Db) : (migrate db).embeddings = db.embeddings := by
  unfold migrate; split <;> rfl

/-- `Collection.id()`: return the cached `_id`; otherwise run the schema
migrations if needed, read the `collections` row by `name` (adopting its
`model` column into `_model_id` when none was given), or insert a fresh
row named with `model().model_id` and cache its surrogate key. -/
def Collection.id (reg : Registry) (c : Collection) (db : Db) : Res Nat :=
  match c._id with
  | some i => ⟨.ok i, c, db, []⟩
  | none =>
    let db := migrate db
    match db.collections.find? (fun r => r.name == c.name) with
    | some row =>
      ⟨.ok row.id,
        { c with
          _id := some row.id
          _model_id := match c._model_id with
            | none => some row.model
            | some s => some s },
        db, [.readCollections]⟩
    | none =>
      match c.model reg with
      | .error e => ⟨.error e, c, db, [.readCollections]⟩
      | .ok (m, c) =>
        let newId := db.nextId
        ⟨.ok newId,
          { c with _id := some newId },
          { db with
            collections := db.collections ++ [⟨newId, c.name, m.model_id⟩]
            nextId := db.nextId + 1 },
          [.readCollections, .insertCollection]⟩

/-- `Collection.__init__(db, name, model=?, model_id=?)`: reject a
mismatch between a truthy `model` and a truthy `model_id`, then set the
fields and immediately resolve `self._id = self.id()`. -/
def Collection.init (reg : Registry) (db : Db) (name : String)
    (model : Option EmbeddingModel) (model_id : Option String) : Res Nat :=
  match model, model_id with
  | some m, some mid =>
    if mid ≠ "" ∧ m.model_id ≠ mid then
      ⟨.error "model_id does not match model.model_id",
        ⟨name, model, model_id, none⟩, db, []⟩
    else
      Collection.id reg ⟨name, model, model_id, none⟩ db
  | _, _ =>
    Collection.id reg ⟨name, model, model_id, none⟩ db

/-- One entry of the iterable passed to `embed_multi_with_metadata`:
an `(id, text, metadata)` triple. -/
def EntryTriple : Type := String × String × Option Metadata

instance : DecidableEq EntryTriple := by
  unfold EntryTriple; infer_instance

/-- The row dictionary built for one `(id, text, metadata)` triple and
its embedding vector in `embed` / `embed_multi_with_metadata`:
`content` is the text only when `store`, `metadata` is serialized only
when truthy (`json.dumps(metadata) if metadata else None`). -/
def rowOf (cid : Nat) (store : Bool) (emb : List ℚ) : EntryTriple → EmbeddingRow
  | (i, t, md) =>
    ⟨cid, i, emb, if store then some t else none,
      if truthyMeta md then md else none⟩

/-- `Collection.embed(id, text, metadata=?, store=?)`: one vector via
`model().embed(text)`, then one `embeddings` insert. -/
def Collection.embed (reg : Registry) (c : Collection) (db : Db)
    (i : String) (text : String) (metadata : Option Metadata)
    (store : Bool) : Res Unit :=
  match c.model reg with
  | .error e => ⟨.error e, c, db, []⟩
  | .ok (m, c) =>
    let embedding := m.embed text
    let r := c.id reg db
    match r.val with
    | .error e => ⟨.error e, r.coll, r.db, r.eff⟩
    | .ok cid =>
      ⟨.ok (),
        r.coll,
        { r.db with
          embeddings := r.db.embeddings ++ [rowOf cid store embedding (i, text, metadata)] },
        r.eff ++ [.insertEmbedding 1]⟩

/-- Python `x or default` on the optional `batch_size`: `None` and `0`
are falsy and yield the default. -/
def orDefault : Option Nat → Nat → Nat
  | none, d => d
  | some 0, d => d
  | some (n + 1), _ => n + 1

/-- The batch size computed by `embed_multi_with_metadata`:
`min(self.max_batch_size, (self.model().batch_size or self.max_batch_size))`. -/
def batchSizeOf (m : EmbeddingModel) : Nat :=
  min Collection.max_batch_size (orDefault m.batch_size Collection.max_batch_size)

/-- The `while True` loop of `embed_multi_with_metadata`: slice off up to
`bs` entries, stop when the slice is empty, otherwise embed the batch's
texts with one `embed_multi` call, zip the vectors back against the
triples and insert all resulting rows in one transaction. -/
def embedLoop (m : EmbeddingModel) (cid : Nat) (store : Bool) (bs : Nat) :
    List EntryTriple → Db → Db × List Effect
  | entries, db =>
    let batch := entries.take bs
    if h : batch.isEmpty then (db, [])
    else
      let embeddings := m.embed_multi (batch.map (fun e => e.2.1))
      let rows := (embeddings.zip batch).map
        (fun p => rowOf cid store p.1 p.2)
      let rest := embedLoop m cid store bs (entries.drop bs)
        { db with embeddings := db.embeddings ++ rows }
      (rest.1, .insertEmbedding rows.length :: rest.2)
  termination_by entries => entries.length
  decreasing_by
    simp only [List.length_drop]
    have h' : (List.take bs entries).isEmpty ≠ true := h
    have hba : List.take bs entries ≠ [] := by
      intro hE; rw [hE] at h'; exact h' rfl
    have hbs : bs ≠ 0 := by
      intro hb; rw [hb, List.take_zero] at hba; exact hba rfl
    have hne : entries ≠ [] := by
      intro hb; rw [hb, List.take_nil] at hba; exact hba rfl
    have : 0 < entries.length := List.length_pos.mpr hne
    omega

/-- `Collection.embed_multi_with_metadata(entries, store=?)`: compute the
batch size from the model, resolve the collection id once, then run the
batching loop. -/
def Collection.embed_multi_with_metadata (reg : Registry) (c : Collection)
    (db : Db) (entries : List EntryTriple) (store : Bool) : Res Unit :=
  match c.model reg with
  | .error e => ⟨.error e, c, db, []⟩
  | .ok (m, c) =>
    let bs := batchSizeOf m
    let r := c.id reg db
    match r.val with
    | .error e => ⟨.error e, r.coll, r.db, r.eff⟩
    | .ok cid =>
      let rest := embedLoop m cid store bs entries r.db
      ⟨.ok (), r.coll, rest.1, r.eff ++ rest.2⟩

/-- `Collection.embed_multi(entries, store=?)`: delegate to
`embed_multi_with_metadata` with `None` metadata on every pair. -/
def Collection.embed_multi (reg : Registry) (c : Collection) (db : Db)
    (entries : List (String × String)) (store : Bool) : Res Unit :=
  c.embed_multi_with_metadata reg db
    (entries.map (fun p => (p.1, p.2, none))) store

/-- A query result (`Entry` dataclass); `score` is always set by the
similarity query path of this module. -/
structure Entry where
  id : String
  score : ℚ
  content : Option String
  metadata : Option Metadata
deriving DecidableEq

/-- Building one `Entry` from a result row: metadata is deserialized only
when the stored column is truthy
(`json.loads(row["metadata"]) if row["metadata"] else None`). -/
def toEntry (cos : List ℚ → List ℚ → ℚ) (vector : List ℚ)
    (r : EmbeddingRow) : Entry :=
  ⟨r.id, cos r.embedding vector, r.content, r.metadata⟩

/-- The `where` clause of the similarity select: `collection_id = ?`,
plus `id != ?` only when `skip_id` is truthy. -/
def matchesQuery (cid : Nat) (skip : Option String) (r : EmbeddingRow) : Bool :=
  r.collection_id == cid &&
    (if truthyStr skip then !(r.id == skip.getD "") else true)

/-- `order by score desc`: row `a` may precede row `b` when `a`'s
similarity score is at least `b`'s. -/
def scoreGE (cos : List ℚ → List ℚ → ℚ) (vector : List ℚ)
    (a b : EmbeddingRow) : Prop :=
  cos b.embedding vector ≤ cos a.embedding vector

instance (cos : List ℚ → List ℚ → ℚ) (vector : List ℚ) :
    DecidableRel (scoreGE cos vector) := fun a b => by
  unfold scoreGE; infer_instance

/-- The row set produced by the similarity select: filter the
`embeddings` rows by the `where` clause, order by the registered
`distance_score` descending (`order by score desc`), and `limit number`. -/
def queryRows (cos : List ℚ → List ℚ → ℚ) (vector : List ℚ) (cid : Nat)
    (skip : Option String) (number : Nat) (db : Db) : List EmbeddingRow :=
  ((db.embeddings.filter (matchesQuery cid skip)).insertionSort
    (scoreGE cos vector)).take number

/-- `Collection.similar_by_vector(vector, number=?, skip_id=?)`: resolve
the collection id, then run the one select and build `Entry` values in
result order. -/
def Collection.similar_by_vector (cos : List ℚ → List ℚ → ℚ)
    (reg : Registry) (c : Collection) (db : Db) (vector : List ℚ)
    (number : Nat) (skip_id : Option String) : Res (List Entry) :=
  let r := c.id reg db
  match r.val with
  | .error e => ⟨.error e, r.coll, r.db, r.eff⟩
  | .ok cid =>
    let rows := queryRows cos vector cid skip_id number r.db
    ⟨.ok (rows.map (toEntry cos vector)), r.coll, r.db,
      r.eff ++ [.queryEmbeddings]⟩

/-- `Collection.similar_by_id(id, number=?)`: read the stored rows for
`(self.id(), id)`; raise `ValueError("ID not found")` when none exist;
otherwise decode the first row's vector and delegate to
`similar_by_vector` with `skip_id=id`. -/
def Collection.similar_by_id (cos : List ℚ → List ℚ → ℚ)
    (reg : Registry) (c : Collection) (db : Db) (i : String)
    (number : Nat) : Res (List Entry) :=
  let r := c.id reg db
  match r.val with
  | .error e => ⟨.error e, r.coll, r.db, r.eff⟩
  | .ok cid =>
    match r.db.embeddings.filter
        (fun row => row.collection_id == cid && row.id == i) with
    | [] => ⟨.error "ID not found", r.coll, r.db, r.eff ++ [.readEmbeddings]⟩
    | first :: _ =>
      let r2 := Collection.similar_by_vector cos reg r.coll r.db
        first.embedding number (some i)
      ⟨r2.val, r2.coll, r2.db, r.eff ++ [.readEmbeddings] ++ r2.eff⟩

/-- `Collection.similar(text, number=?)`: embed the text with the model
and delegate to `similar_by_vector` with no `skip_id`. -/
def Collection.similar (cos : List ℚ → List ℚ → ℚ)
    (reg : Registry) (c : Collection) (db : Db) (text : String)
    (number : Nat) : Res (List Entry) :=
  match c.model reg with
  | .error e => ⟨.error e, c, db, []⟩
  | .ok (m, c) =>
    Collection.similar_by_vector cos reg c db (m.embed text) number none

/-! ### Concrete fixtures used by witnesses and counterexamples -/

/-- A registry that knows no model. -/
def regNone : Registry := fun _ => none

/-- A toy embedding model with identifier `"A"`, no declared batch size. -/
def modelA : EmbeddingModel :=
  ⟨"A", fun _ => [1], fun ts => ts.map (fun _ => [1]), none⟩

/-- A fresh database: no rows, next surrogate key 1, schema absent. -/
def emptyDb : Db := ⟨[], [], 1, false⟩

/-- A concrete stand-in for the external cosine-similarity scoring
function, used only by witnesses and counterexamples: the first
coordinate of the stored vector.  The search theorems' content is
independent of the scoring formula, and on the fixtures below this
ranks rows exactly as cosine similarity against the query vector [1]
does. -/
def scoreFst (a b : List ℚ) : ℚ := a.headD 0

/-! ### Helper lemmas about `Collection.id` -/

theorem id_cached (reg : Registry) (c : Collection) (db : Db) (v : Nat)
    (hid : c._id = some v) : Collection.id reg c db = ⟨.ok v, c, db, []⟩ := by
  simp [Collection.id, hid]

theorem id_resolves_cache (reg : Registry) (c : Collection) (db : Db) (v : Nat)
    (hok : (Collection.id reg c db).val = .ok v) :
    (Collection.id reg c db).coll._id = some v := by
  unfold Collection.id at *
  cases hc : c._id with
  | some i => simp_all
  | none =>
    dsimp only at hok ⊢
    cases hf : List.find? (fun r => r.name == c.name) (migrate db).collections with
    | some row => simp_all
    | none =>
      cases hm : Collection.model reg c with
      | error e => simp_all
      | ok p => obtain ⟨m1, c1⟩ := p; simp_all

theorem id_eff_kinds (reg : Registry) (c : Collection) (db : Db) :
    ∀ e ∈ (Collection.id reg c db).eff,
      e = .readCollections ∨ e = .insertCollection := by
  unfold Collection.id
  cases hc : c._id with
  | some i => simp
  | none =>
    dsimp only
    cases hf : List.find? (fun r => r.name == c.name) (migrate db).collections with
    | some row => simp [hf]
    | none =>
      cases hm : Collection.model reg c with
      | error e => simp [hf, hm]
      | ok p => obtain ⟨m1, c1⟩ := p; simp [hf, hm]

theorem id_unresolved_eff (reg : Registry) (c : Collection) (db : Db) (v : Nat)
    (hid : c._id = none) (hok : (Collection.id reg c db).val = .ok v) :
    Effect.readCollections ∈ (Collection.id reg c db).eff
    ∧ (db.collections.find? (fun r => r.name == c.name) = none →
        Effect.insertCollection ∈ (Collection.id reg c db).eff) := by
  unfold Collection.id at *
  rw [hid] at hok ⊢
  dsimp only at hok ⊢
  rw [migrate_collections] at hok ⊢
  cases hf : List.find? (fun r => r.name == c.name) db.collections with
  | some row => simp [hf]
  | none =>
    cases hm : Collection.model reg c with
    | error e => rw [hf, hm] at hok; simp at hok
    | ok p => obtain ⟨m1, c1⟩ := p; simp [hf, hm]

theorem id_insert_count (reg : Registry) (c : Collection) (db : Db) :
    ((Collection.id reg c db).eff.filter
      (fun e => e == .insertCollection)).length ≤ 1 := by
  unfold Collection.id
  cases hc : c._id with
  | some i => simp
  | none =>
    dsimp only
    cases hf : List.find? (fun r => r.name == c.name) (migrate db).collections with
    | some row => simp [hf]
    | none =>
      cases hm : Collection.model reg c with
      | error e => simp [hf, hm]
      | ok p => obtain ⟨m1, c1⟩ := p; simp [hf, hm]

theorem init_eq_id_or_error (reg : Registry) (db : Db) (name : String)
    (mo : Option EmbeddingModel) (mid : Option String) :
    Collection.init reg db name mo mid
      = Collection.id reg ⟨name, mo, mid, none⟩ db
    ∨ (Collection.init reg db name mo mid).val
      = .error "model_id does not match model.model_id" := by
  unfold Collection.init
  match mo, mid with
  | none, none => exact Or.inl rfl
  | none, some mi => exact Or.inl rfl
  | some m, none => exact Or.inl rfl
  | some m, some mi =>
    dsimp only
    split
    · right; rfl
    · left; rfl

/-- N successive calls of `Collection.id()` on the same object, threading
the object and the database and concatenating the effect traces. -/
def idN (reg : Registry) : Nat → Collection → Db → Res (List Nat)
  | 0, c, db => ⟨.ok [], c, db, []⟩
  | n + 1, c, db =>
    let r := Collection.id reg c db
    match r.val with
    | .error e => ⟨.error e, r.coll, r.db, r.eff⟩
    | .ok v =>
      let r2 := idN reg n r.coll r.db
      match r2.val with
      | .error e => ⟨.error e, r2.coll, r2.db, r.eff ++ r2.eff⟩
      | .ok vs => ⟨.ok (v :: vs), r2.coll, r2.db, r.eff ++ r2.eff⟩

theorem idN_cached (reg : Registry) (n : Nat) :
    ∀ (c : Collection) (db : Db) (v : Nat), c._id = some v →
      idN reg n c db = ⟨.ok (List.replicate n v), c, db, []⟩ := by
  induction n with
  | zero => intro c db v hid; simp [idN]
  | succ k ih =>
    intro c db v hid
    simp [idN, id_cached reg c db v hid, ih c db v hid, List.replicate_succ]

/-- C1 (counterexample to the claim as stated): constructing a
`Collection` on a fresh database already reads the `collections` table
and inserts the row for the name, because `__init__` ends with
`self._id = self.id()`. -/
theorem C1_lazy_construction_counterexample :
    (Collection.init regNone emptyDb "c" (some modelA) none).eff
        = [.readCollections, .insertCollection]
    ∧ (Collection.init regNone emptyDb "c" (some modelA) none).db.collections
        = [⟨1, "c", "A"⟩] := by
  constructor <;> rfl

/-- C1 (amended): construction resolves the collection row eagerly —
`__init__` ends with `self._id = self.id()`, so on successful
construction the object's `_id` is already resolved, the `collections`
table was read by name, and when no row for the name existed one was
inserted. -/
theorem C1_construction_resolves_eagerly (reg : Registry) (db : Db)
    (name : String) (mo : Option EmbeddingModel) (mid : Option String)
    (v : Nat) (hok : (Collection.init reg db name mo mid).val = .ok v) :
    (Collection.init reg db name mo mid).coll._id = some v
    ∧ Effect.readCollections ∈ (Collection.init reg db name mo mid).eff
    ∧ (db.collections.find? (fun r => r.name == name) = none →
        Effect.insertCollection ∈ (Collection.init reg db name mo mid).eff) := by
  rcases init_eq_id_or_error reg db name mo mid with heq | herr
  · rw [heq] at hok ⊢
    obtain ⟨h1, h2⟩ := id_unresolved_eff reg ⟨name, mo, mid, none⟩ db v rfl hok
    exact ⟨id_resolves_cache reg ⟨name, mo, mid, none⟩ db v hok, h1, h2⟩
  · rw [herr] at hok; simp at hok

/-- C1 (witness for the amended theorem). -/
theorem C1_construction_resolves_eagerly_witness :
    (Collection.init regNone emptyDb "c" (some modelA) none).coll._id = some 1
    ∧ Effect.readCollections
        ∈ (Collection.init regNone emptyDb "c" (some modelA) none).eff
    ∧ (emptyDb.collections.find? (fun r => r.name == "c") = none →
        Effect.insertCollection
          ∈ (Collection.init regNone emptyDb "c" (some modelA) none).eff) :=
  C1_construction_resolves_eagerly regNone emptyDb "c" (some modelA) none 1 rfl

/-- C5: N successive `id()` calls on one `Collection` all return the same
integer, and the whole run performs at most one insert into the
`collections` table; once resolved the cached id never changes. -/
theorem C5_id_idempotent_at_most_one_insert (reg : Registry)
    (c : Collection) (db : Db) (n : Nat) (vs : List Nat)
    (hok : (idN reg n c db).val = .ok vs) :
    (∀ v ∈ vs, ∀ w ∈ vs, v = w)
    ∧ ((idN reg n c db).eff.filter
        (fun e => e == Effect.insertCollection)).length ≤ 1 := by
  cases n with
  | zero =>
    simp only [idN] at hok ⊢
    try dsimp only at hok
    injection hok with h
    subst h
    simp
  | succ k =>
    have hcount := id_insert_count reg c db
    unfold idN at hok ⊢
    dsimp only at hok ⊢
    cases hv : (Collection.id reg c db).val with
    | error e => simp_all
    | ok v =>
      have hres := id_resolves_cache reg c db v hv
      rw [idN_cached reg k _ _ v hres] at hok ⊢
      rw [hv] at hok
      dsimp only at hok
      injection hok with h
      subst h
      constructor
      · intro a ha b hb
        have hav : a = v := by
          rcases List.mem_cons.mp ha with h | h
          · exact h
          · exact List.eq_of_mem_replicate h
        have hbv : b = v := by
          rcases List.mem_cons.mp hb with h | h
          · exact h
          · exact List.eq_of_mem_replicate h
        rw [hav, hbv]
      · simpa using hcount

/-- C5 (witness): three `id()` calls on an already-resolved collection. -/
theorem C5_id_idempotent_witness :
    (∀ v ∈ [7, 7, 7], ∀ w ∈ [7, 7, 7], v = w)
    ∧ ((idN regNone 3 ⟨"c", none, some "A", some 7⟩ emptyDb).eff.filter
        (fun e => e == Effect.insertCollection)).length ≤ 1 :=
  C5_id_idempotent_at_most_one_insert regNone
    ⟨"c", none, some "A", some 7⟩ emptyDb 3 [7, 7, 7] rfl

/-- C7: when a `collections` row for the name already exists and no
explicit `model_id` was given, resolution adopts the row's stored model
identifier (and its id) rather than any caller or registry default. -/
theorem C7_open_adopts_stored_model (reg : Registry) (db : Db)
    (name : String) (mo : Option EmbeddingModel) (row : CollectionRow)
    (hfind : db.collections.find? (fun r => r.name == name) = some row) :
    (Collection.init reg db name mo none).val = .ok row.id
    ∧ (Collection.init reg db name mo none).coll._model_id = some row.model
    ∧ (Collection.init reg db name mo none).coll._id = some row.id := by
  have heq : Collection.init reg db name mo none
      = Collection.id reg ⟨name, mo, none, none⟩ db := by
    unfold Collection.init; cases mo <;> rfl
  rw [heq]
  unfold Collection.id
  dsimp only
  rw [migrate_collections]
  simp [hfind]

/-- C7 (witness): a stored row `{id := 5, name := "c", model := "legacy"}`
is adopted by a collection opened with no model at all. -/
theorem C7_open_adopts_stored_model_witness :
    (Collection.init regNone ⟨[⟨5, "c", "legacy"⟩], [], 6, true⟩ "c" none none).val
        = .ok 5
    ∧ (Collection.init regNone
        ⟨[⟨5, "c", "legacy"⟩], [], 6, true⟩ "c" none none).coll._model_id
        = some "legacy"
    ∧ (Collection.init regNone
        ⟨[⟨5, "c", "legacy"⟩], [], 6, true⟩ "c" none none).coll._id
        = some 5 :=
  C7_open_adopts_stored_model regNone ⟨[⟨5, "c", "legacy"⟩], [], 6, true⟩ "c"
    none ⟨5, "c", "legacy"⟩ rfl

theorem model_cached (reg : Registry) (c : Collection) (m : EmbeddingModel)
    (hm : c._model = some m) : Collection.model reg c = .ok (m, c) := by
  unfold Collection.model
  rw [hm]

theorem batchSizeOf_pos (m : EmbeddingModel) : 1 ≤ batchSizeOf m := by
  unfold batchSizeOf orDefault Collection.max_batch_size
  cases hb : m.batch_size with
  | none => dsimp only; omega
  | some b => cases b <;> dsimp only <;> omega

theorem batchSizeOf_le (m : EmbeddingModel) : batchSizeOf m ≤ 100 :=
  Nat.min_le_left _ _

theorem zip_map_self {α β : Type} (f : α → β) :
    ∀ l : List α, (l.map f).zip l = l.map (fun x => (f x, x))
  | [] => rfl
  | a :: as => by simp [zip_map_self f as]

theorem embedLoop_nil (m : EmbeddingModel) (cid : Nat) (store : Bool)
    (bs : Nat) (entries : List EntryTriple) (db : Db)
    (h : entries.take bs = []) :
    embedLoop m cid store bs entries db = (db, []) := by
  rw [embedLoop.eq_def]
  simp [h]

theorem embedLoop_cons (m : EmbeddingModel) (cid : Nat) (store : Bool)
    (bs : Nat) (entries : List EntryTriple) (db : Db)
    (h : entries.take bs ≠ []) :
    embedLoop m cid store bs entries db =
      (let batch := entries.take bs
       let embeddings := m.embed_multi (batch.map (fun e => e.2.1))
       let rows := (embeddings.zip batch).map (fun p => rowOf cid store p.1 p.2)
       let rest := embedLoop m cid store bs (entries.drop bs)
         { db with embeddings := db.embeddings ++ rows }
       (rest.1, .insertEmbedding rows.length :: rest.2)) := by
  rw [embedLoop.eq_def]
  simp [h]

theorem embedLoop_eff (m : EmbeddingModel) (cid : Nat) (store : Bool)
    (bs : Nat) (entries : List EntryTriple) (db : Db) :
    ∀ e ∈ (embedLoop m cid store bs entries db).2,
      ∃ n, e = Effect.insertEmbedding n ∧ n ≤ bs := by
  induction entries, db using embedLoop.induct m cid store bs with
  | case1 entries db batch h =>
    rw [embedLoop_nil m cid store bs entries db (List.isEmpty_iff.mp h)]
    simp
  | case2 entries db batch h embs rows ih =>
    have hne : entries.take bs ≠ [] := by
      intro hE
      apply h
      show (List.take bs entries).isEmpty = true
      rw [hE]
      rfl
    rw [embedLoop_cons m cid store bs entries db hne]
    dsimp only
    intro e he
    rcases List.mem_cons.mp he with rfl | hmem
    · refine ⟨_, rfl, ?_⟩
      simp only [List.length_map, List.length_zip, List.length_take]
      omega
    · exact ih e hmem

theorem embedLoop_eff_length (m : EmbeddingModel) (cid : Nat) (store : Bool)
    (bs : Nat) (hbs : 1 ≤ bs) (entries : List EntryTriple) (db : Db) :
    (embedLoop m cid store bs entries db).2.length ≤ entries.length := by
  induction entries, db using embedLoop.induct m cid store bs with
  | case1 entries db batch h =>
    rw [embedLoop_nil m cid store bs entries db (List.isEmpty_iff.mp h)]
    simp
  | case2 entries db batch h embs rows ih =>
    have hne : entries.take bs ≠ [] := by
      intro hE
      apply h
      show (List.take bs entries).isEmpty = true
      rw [hE]
      rfl
    rw [embedLoop_cons m cid store bs entries db hne]
    dsimp only
    simp only [List.length_cons]
    unfold rows embs batch at ih
    have hne2 : entries ≠ [] := by
      intro hE; rw [hE, List.take_nil] at hne; exact hne rfl
    have hpos : 0 < entries.length := List.length_pos.mpr hne2
    have hdrop : (entries.drop bs).length < entries.length := by
      simp only [List.length_drop]; omega
    omega

theorem embedLoop_embeddings (m : EmbeddingModel) (cid : Nat) (store : Bool)
    (bs : Nat) (f : String → List ℚ) (hbs : 1 ≤ bs)
    (halign : ∀ ts, m.embed_multi ts = ts.map f)
    (entries : List EntryTriple) (db : Db) :
    (embedLoop m cid store bs entries db).1.embeddings
      = db.embeddings ++ entries.map (fun e => rowOf cid store (f e.2.1) e) := by
  induction entries, db using embedLoop.induct m cid store bs with
  | case1 entries db batch h =>
    have h0 : entries.take bs = [] := List.isEmpty_iff.mp h
    rw [embedLoop_nil m cid store bs entries db h0]
    have hnil : entries = [] := by
      cases entries with
      | nil => rfl
      | cons a as =>
        obtain ⟨k, rfl⟩ : ∃ k, bs = k + 1 := ⟨bs - 1, by omega⟩
        rw [List.take_succ_cons] at h0
        cases h0
    subst hnil
    simp
  | case2 entries db batch h embs rows ih =>
    have hne : entries.take bs ≠ [] := by
      intro hE
      apply h
      show (List.take bs entries).isEmpty = true
      rw [hE]
      rfl
    rw [embedLoop_cons m cid store bs entries db hne]
    dsimp only
    rw [ih]
    dsimp only
    unfold rows embs batch
    rw [halign, List.map_map, zip_map_self, List.map_map]
    simp only [Function.comp_def]
    rw [List.append_assoc, ← List.map_append, List.take_append_drop]

/-- A resolved collection fixture: cached model `modelA`, cached id 1. -/
def collA : Collection := ⟨"c", some modelA, some "A", some 1⟩

/-- Two-entry fixture for the bulk write path: one entry with no
metadata, one with a nonempty dict. -/
def entriesW : List EntryTriple := [("a", "x", none), ("b", "y", some [("k", "1")])]

/-- A toy model declaring preferred batch size 1000. -/
def modelB1000 : EmbeddingModel :=
  ⟨"B", fun _ => [1], fun ts => ts.map (fun _ => [1]), some 1000⟩

/-- A resolved collection over `modelB1000`. -/
def collB1000 : Collection := ⟨"c", some modelB1000, some "B", some 1⟩

/-- A toy model declaring batch size 0 (falsy in Python). -/
def modelZero : EmbeddingModel :=
  ⟨"Z", fun _ => [1], fun ts => ts.map (fun _ => [1]), some 0⟩

/-- The batch-size formula in the claim's words — min(100, model
batch_size if declared else 100) — for comparison with the source's
`or`-based computation `batchSizeOf`. -/
def claimedBatchSize (m : EmbeddingModel) : Nat :=
  min 100 (m.batch_size.getD 100)

/-- C2: under the model contract that `embed_multi` returns vectors
positionally aligned with the submitted texts (`embed_multi ts = ts.map f`),
`embed_multi_with_metadata` appends exactly one row per entry, in order,
each row holding the vector of that entry's own text — vectors are never
swapped between entries, across any number of batches. -/
theorem C2_batch_alignment (reg : Registry) (c : Collection) (db : Db)
    (cid : Nat) (m : EmbeddingModel) (f : String → List ℚ)
    (entries : List EntryTriple) (store : Bool)
    (hid : c._id = some cid) (hm : c._model = some m)
    (halign : ∀ ts, m.embed_multi ts = ts.map f) :
    (Collection.embed_multi_with_metadata reg c db entries store).val = .ok ()
    ∧ (Collection.embed_multi_with_metadata reg c db entries store).db.embeddings
      = db.embeddings ++ entries.map (fun e => rowOf cid store (f e.2.1) e) := by
  unfold Collection.embed_multi_with_metadata
  rw [model_cached reg c m hm]
  dsimp only
  rw [id_cached reg c db cid hid]
  dsimp only
  exact ⟨rfl, embedLoop_embeddings m cid store (batchSizeOf m) f
    (batchSizeOf_pos m) halign entries db⟩

/-- C2 (witness): two entries, a constant-vector model, one batch. -/
theorem C2_batch_alignment_witness :
    (Collection.embed_multi_with_metadata regNone collA emptyDb entriesW false).val
        = .ok ()
    ∧ (Collection.embed_multi_with_metadata regNone collA emptyDb entriesW false).db.embeddings
        = emptyDb.embeddings ++ entriesW.map (fun e => rowOf 1 false [1] e) :=
  C2_batch_alignment regNone collA emptyDb 1 modelA (fun _ => [1]) entriesW
    false rfl rfl (fun ts => rfl)

/-- C6 (counterexample to the claim's formula as worded): for a model
declaring batch size 0 the source's `batch_size or max_batch_size`
yields 100, not min(100, 0) = 0 as "model batch_size if declared else
100" would give. -/
theorem C6_declared_zero_counterexample :
    batchSizeOf modelZero = 100 ∧ claimedBatchSize modelZero = 0
    ∧ batchSizeOf modelZero ≠ claimedBatchSize modelZero :=
  ⟨by decide, by decide, by decide⟩

/-- C6 (amended): the computed batch size is min(100, b) for a declared
nonzero batch size b and 100 when the batch size is undeclared or
declared 0 (Python `or` treats 0 as falsy); it never exceeds 100, and
every insert-all effect of `embed_multi_with_metadata` covers at most
100 rows, also when the model declares a preferred batch size of 1000. -/
theorem C6_batch_size_bound (m : EmbeddingModel) (reg : Registry)
    (c : Collection) (db : Db) (entries : List EntryTriple) (store : Bool) :
    batchSizeOf m ≤ 100
    ∧ (m.batch_size = some 1000 → batchSizeOf m = 100)
    ∧ (∀ b, m.batch_size = some b → 1 ≤ b → batchSizeOf m = min 100 b)
    ∧ (m.batch_size = none ∨ m.batch_size = some 0 → batchSizeOf m = 100)
    ∧ (∀ n, Effect.insertEmbedding n
        ∈ (Collection.embed_multi_with_metadata reg c db entries store).eff →
        n ≤ 100) := by
  refine ⟨batchSizeOf_le m, ?_, ?_, ?_, ?_⟩
  · intro hb
    unfold batchSizeOf orDefault Collection.max_batch_size
    rw [hb]
    decide
  · intro b hb hb1
    obtain ⟨k, rfl⟩ : ∃ k, b = k + 1 := ⟨b - 1, by omega⟩
    unfold batchSizeOf orDefault Collection.max_batch_size
    rw [hb]
  · rintro (hb | hb) <;>
      (unfold batchSizeOf orDefault Collection.max_batch_size
       rw [hb]
       decide)
  · intro n hmem
    unfold Collection.embed_multi_with_metadata at hmem
    cases hM : Collection.model reg c with
    | error e => rw [hM] at hmem; simp at hmem
    | ok p =>
      obtain ⟨m1, c1⟩ := p
      rw [hM] at hmem
      dsimp only at hmem
      cases hv : (Collection.id reg c1 db).val with
      | error e =>
        rw [hv] at hmem
        dsimp only at hmem
        rcases id_eff_kinds reg c1 db _ hmem with h | h <;> cases h
      | ok cid =>
        rw [hv] at hmem
        dsimp only at hmem
        rcases List.mem_append.mp hmem with hL | hR
        · rcases id_eff_kinds reg c1 db _ hL with h | h <;> cases h
        · obtain ⟨k, hk, hkb⟩ := embedLoop_eff m1 cid store (batchSizeOf m1)
            entries (Collection.id reg c1 db).db _ hR
          injection hk with hk2
          subst hk2
          exact le_trans hkb (batchSizeOf_le m1)

/-- C6 (witness for the amended theorem), at a model declaring 1000. -/
theorem C6_batch_size_bound_witness :
    batchSizeOf modelB1000 ≤ 100
    ∧ batchSizeOf modelB1000 = 100
    ∧ batchSizeOf modelB1000 = min 100 1000
    ∧ (∀ n, Effect.insertEmbedding n
        ∈ (Collection.embed_multi_with_metadata regNone collB1000 emptyDb entriesW false).eff →
        n ≤ 100) :=
  ⟨(C6_batch_size_bound modelB1000 regNone collB1000 emptyDb entriesW false).1,
   (C6_batch_size_bound modelB1000 regNone collB1000 emptyDb entriesW false).2.1 rfl,
   (C6_batch_size_bound modelB1000 regNone collB1000 emptyDb entriesW false).2.2.1
     1000 rfl (by omega),
   (C6_batch_size_bound modelB1000 regNone collB1000 emptyDb entriesW false).2.2.2.2⟩

/-- C9: a falsy metadata argument (None or the empty dict) is stored as
a null metadata column — by `embed`, and by the row builder used by
`embed_multi_with_metadata` — and a null stored column deserializes to
none in later query results. -/
theorem C9_falsy_metadata_stored_null (reg : Registry) (c : Collection)
    (db : Db) (cid : Nat) (m : EmbeddingModel) (i t : String)
    (md : Option Metadata) (store : Bool)
    (hid : c._id = some cid) (hm : c._model = some m)
    (hmd : md = none ∨ md = some []) :
    (Collection.embed reg c db i t md store).db.embeddings
      = db.embeddings
        ++ [⟨cid, i, m.embed t, if store then some t else none, none⟩]
    ∧ (∀ (cid' : Nat) (store' : Bool) (emb : List ℚ) (e : EntryTriple),
        e.2.2 = md → (rowOf cid' store' emb e).metadata = none)
    ∧ (∀ (cos : List ℚ → List ℚ → ℚ) (vector : List ℚ) (r : EmbeddingRow),
        r.metadata = none → (toEntry cos vector r).metadata = none) := by
  have htm : truthyMeta md = false := by
    rcases hmd with rfl | rfl <;> rfl
  refine ⟨?_, ?_, ?_⟩
  · unfold Collection.embed
    rw [model_cached reg c m hm]
    dsimp only
    rw [id_cached reg c db cid hid]
    dsimp only
    unfold rowOf
    simp [htm]
  · intro cid' store' emb e he
    obtain ⟨e1, e2, e3⟩ := e
    have he3 : e3 = md := he
    subst he3
    unfold rowOf
    simp [htm]
  · intro cos vector r hr
    simp [toEntry, hr]

/-- C9 (witness): `embed` with the empty dict stores a null metadata
column. -/
theorem C9_falsy_metadata_stored_null_witness :
    (Collection.embed regNone collA emptyDb "a" "x" (some []) false).db.embeddings
      = emptyDb.embeddings ++ [⟨1, "a", [1], none, none⟩]
    ∧ (∀ (cid' : Nat) (store' : Bool) (emb : List ℚ) (e : EntryTriple),
        e.2.2 = some [] → (rowOf cid' store' emb e).metadata = none)
    ∧ (∀ (cos : List ℚ → List ℚ → ℚ) (vector : List ℚ) (r : EmbeddingRow),
        r.metadata = none → (toEntry cos vector r).metadata = none) :=
  C9_falsy_metadata_stored_null regNone collA emptyDb 1 modelA "a" "x"
    (some []) false rfl rfl (Or.inr rfl)

/-- C10: for every finite entries list the bulk write terminates
successfully: the computed batch size is at least 1, the loop emits one
insert effect per iteration and runs at most entries.length iterations,
and it exits immediately — with no effects — when the entries are
exhausted. -/
theorem C10_embed_multi_terminates (reg : Registry) (c : Collection)
    (db : Db) (cid : Nat) (m : EmbeddingModel) (entries : List EntryTriple)
    (store : Bool) (hid : c._id = some cid) (hm : c._model = some m) :
    1 ≤ batchSizeOf m
    ∧ (Collection.embed_multi_with_metadata reg c db entries store).val = .ok ()
    ∧ (Collection.embed_multi_with_metadata reg c db entries store).eff.length
        ≤ entries.length
    ∧ (entries = [] →
        (Collection.embed_multi_with_metadata reg c db entries store).eff = []) := by
  unfold Collection.embed_multi_with_metadata
  rw [model_cached reg c m hm]
  dsimp only
  rw [id_cached reg c db cid hid]
  dsimp only
  refine ⟨batchSizeOf_pos m, rfl, ?_, ?_⟩
  · simpa using
      embedLoop_eff_length m cid store (batchSizeOf m) (batchSizeOf_pos m) entries db
  · intro hE
    subst hE
    rw [embedLoop_nil m cid store (batchSizeOf m) [] db (by simp)]
    rfl

/-- C10 (witness). -/
theorem C10_embed_multi_terminates_witness :
    1 ≤ batchSizeOf modelA
    ∧ (Collection.embed_multi_with_metadata regNone collA emptyDb entriesW false).val
        = .ok ()
    ∧ (Collection.embed_multi_with_metadata regNone collA emptyDb entriesW false).eff.length
        ≤ entriesW.length
    ∧ (entriesW = [] →
        (Collection.embed_multi_with_metadata regNone collA emptyDb entriesW false).eff
          = []) :=
  C10_embed_multi_terminates regNone collA emptyDb 1 modelA entriesW false rfl rfl

instance (cos : List ℚ → List ℚ → ℚ) (vector : List ℚ) :
    IsTotal EmbeddingRow (scoreGE cos vector) :=
  ⟨fun a b => le_total (cos b.embedding vector) (cos a.embedding vector)⟩

instance (cos : List ℚ → List ℚ → ℚ) (vector : List ℚ) :
    IsTrans EmbeddingRow (scoreGE cos vector) :=
  ⟨fun _ _ _ hab hbc => le_trans hbc hab⟩

theorem queryRows_length (cos : List ℚ → List ℚ → ℚ) (vector : List ℚ)
    (cid : Nat) (skip : Option String) (number : Nat) (db : Db) :
    (queryRows cos vector cid skip number db).length ≤ number := by
  unfold queryRows
  rw [List.length_take]
  exact Nat.min_le_left _ _

theorem queryRows_sorted (cos : List ℚ → List ℚ → ℚ) (vector : List ℚ)
    (cid : Nat) (skip : Option String) (number : Nat) (db : Db) :
    (queryRows cos vector cid skip number db).Pairwise (scoreGE cos vector) :=
  List.Pairwise.sublist (List.take_sublist _ _)
    (List.sorted_insertionSort (scoreGE cos vector)
      (db.embeddings.filter (matchesQuery cid skip)))

theorem queryRows_mem (cos : List ℚ → List ℚ → ℚ) (vector : List ℚ)
    (cid : Nat) (skip : Option String) (number : Nat) (db : Db) :
    ∀ r ∈ queryRows cos vector cid skip number db,
      r ∈ db.embeddings ∧ matchesQuery cid skip r = true := by
  intro r hr
  unfold queryRows at hr
  have h1 := (List.mem_insertionSort (scoreGE cos vector)).mp
    (List.mem_of_mem_take hr)
  exact ⟨List.mem_of_mem_filter h1, List.of_mem_filter h1⟩

theorem queryRows_one_max (cos : List ℚ → List ℚ → ℚ) (vector : List ℚ)
    (cid : Nat) (skip : Option String) (db : Db) (r : EmbeddingRow)
    (hr : r ∈ db.embeddings) (hm : matchesQuery cid skip r = true) :
    ∃ x, queryRows cos vector cid skip 1 db = [x]
      ∧ ∀ s ∈ db.embeddings, matchesQuery cid skip s = true →
          cos s.embedding vector ≤ cos x.embedding vector := by
  unfold queryRows
  have hrf : r ∈ db.embeddings.filter (matchesQuery cid skip) :=
    List.mem_filter.mpr ⟨hr, hm⟩
  cases hsort : (db.embeddings.filter (matchesQuery cid skip)).insertionSort
      (scoreGE cos vector) with
  | nil =>
    have := (List.mem_insertionSort (scoreGE cos vector)).mpr hrf
    rw [hsort] at this
    cases this
  | cons x xs =>
    refine ⟨x, rfl, ?_⟩
    intro s hs hms
    have hsf : s ∈ db.embeddings.filter (matchesQuery cid skip) :=
      List.mem_filter.mpr ⟨hs, hms⟩
    have hss := (List.mem_insertionSort (scoreGE cos vector)).mpr hsf
    rw [hsort] at hss
    rcases List.mem_cons.mp hss with rfl | hmem
    · exact le_refl _
    · have hp := List.sorted_insertionSort (scoreGE cos vector)
        (db.embeddings.filter (matchesQuery cid skip))
      rw [hsort] at hp
      exact (List.pairwise_cons.mp hp).1 s hmem

theorem matchesQuery_none (cid : Nat) (r : EmbeddingRow) :
    matchesQuery cid none r = (r.collection_id == cid) := by
  simp [matchesQuery, truthyStr]

theorem matchesQuery_skip (cid : Nat) (s : String) (r : EmbeddingRow)
    (hs : s ≠ "") (h : matchesQuery cid (some s) r = true) : r.id ≠ s := by
  unfold matchesQuery truthyStr at h
  simp [hs] at h
  exact h.2

theorem similar_by_vector_cached (cos : List ℚ → List ℚ → ℚ)
    (reg : Registry) (c : Collection) (db : Db) (vector : List ℚ)
    (number : Nat) (skip : Option String) (cid : Nat)
    (hid : c._id = some cid) :
    Collection.similar_by_vector cos reg c db vector number skip
      = ⟨.ok ((queryRows cos vector cid skip number db).map (toEntry cos vector)),
          c, db, [.queryEmbeddings]⟩ := by
  unfold Collection.similar_by_vector
  rw [id_cached reg c db cid hid]
  rfl

theorem similar_by_vector_entries_mem (cos : List ℚ → List ℚ → ℚ)
    (reg : Registry) (c : Collection) (db : Db) (vector : List ℚ)
    (number : Nat) (skip : Option String) (entries : List Entry)
    (hok : (Collection.similar_by_vector cos reg c db vector number skip).val
      = .ok entries) :
    ∃ cid, (Collection.id reg c db).val = .ok cid
      ∧ ∀ e ∈ entries, ∃ r, r ∈ (Collection.id reg c db).db.embeddings
          ∧ matchesQuery cid skip r = true ∧ e = toEntry cos vector r := by
  unfold Collection.similar_by_vector at hok
  dsimp only at hok
  cases hv : (Collection.id reg c db).val with
  | error e =>
    rw [hv] at hok
    dsimp only at hok
    cases hok
  | ok cid =>
    rw [hv] at hok
    dsimp only at hok
    injection hok with h
    subst h
    refine ⟨cid, rfl, ?_⟩
    intro e he
    rw [List.mem_map] at he
    obtain ⟨r, hr, rfl⟩ := he
    obtain ⟨h1, h2⟩ := queryRows_mem cos vector cid skip number
      (Collection.id reg c db).db r hr
    exact ⟨r, h1, h2, rfl⟩

/-- A resolved collection fixture with no cached model object. -/
def collQ : Collection := ⟨"c", none, some "A", some 1⟩

/-- A database holding one item whose id is the empty string. -/
def db4 : Db := ⟨[⟨1, "c", "A"⟩], [⟨1, "", [1], none, none⟩], 2, true⟩

/-- A database holding items "q" and "b". -/
def db4b : Db :=
  ⟨[⟨1, "c", "A"⟩], [⟨1, "q", [1], none, none⟩, ⟨1, "b", [2], none, none⟩], 2, true⟩

/-- A database holding three items with pairwise distinct scores against
the query vector [1]. -/
def db3 : Db :=
  ⟨[⟨1, "c", "A"⟩],
   [⟨1, "a", [3], none, none⟩, ⟨1, "b", [2], none, some [("k", "1")]⟩,
    ⟨1, "e", [1], none, none⟩], 2, true⟩

/-- C3: `similar_by_vector(vector, number)` returns at most `number`
entries, sorted in nonincreasing score order, each drawn from a stored
row of this collection with its metadata carried over; with number = 1
and at least one stored row it returns exactly one entry whose score is
at least that of every stored row of the collection. -/
theorem C3_similar_by_vector_ranking (cos : List ℚ → List ℚ → ℚ)
    (reg : Registry) (c : Collection) (db : Db) (vector : List ℚ)
    (number : Nat) (cid : Nat) (hid : c._id = some cid) :
    ∃ entries,
      (Collection.similar_by_vector cos reg c db vector number none).val
        = .ok entries
      ∧ entries.length ≤ number
      ∧ entries.Pairwise (fun a b => b.score ≤ a.score)
      ∧ (∀ e ∈ entries, ∃ r, r ∈ db.embeddings ∧ r.collection_id = cid
          ∧ e = toEntry cos vector r ∧ e.metadata = r.metadata)
      ∧ (number = 1 → ∀ r ∈ db.embeddings, r.collection_id = cid →
          ∃ e, entries = [e] ∧ ∀ s ∈ db.embeddings, s.collection_id = cid →
            cos s.embedding vector ≤ e.score) := by
  rw [similar_by_vector_cached cos reg c db vector number none cid hid]
  refine ⟨_, rfl, ?_, ?_, ?_, ?_⟩
  · rw [List.length_map]
    exact queryRows_length cos vector cid none number db
  · exact List.Pairwise.map _ (fun a b hab => hab)
      (queryRows_sorted cos vector cid none number db)
  · intro e he
    rw [List.mem_map] at he
    obtain ⟨r, hr, rfl⟩ := he
    obtain ⟨h1, h2⟩ := queryRows_mem cos vector cid none number db r hr
    rw [matchesQuery_none] at h2
    exact ⟨r, h1, by simpa using h2, rfl, rfl⟩
  · rintro rfl r hr hcid
    have hm : matchesQuery cid none r = true := by
      rw [matchesQuery_none]; simp [hcid]
    obtain ⟨x, hx, hmax⟩ := queryRows_one_max cos vector cid none db r hr hm
    refine ⟨toEntry cos vector x, by rw [hx]; rfl, ?_⟩
    intro s hs hscid
    have hms : matchesQuery cid none s = true := by
      rw [matchesQuery_none]; simp [hscid]
    exact hmax s hs hms

/-- C3 (witness): three stored vectors scoring 3 > 2 > 1 against the
query vector [1]. -/
theorem C3_similar_by_vector_ranking_witness :
    ∃ entries,
      (Collection.similar_by_vector scoreFst regNone collQ db3 [1] 3 none).val
        = .ok entries
      ∧ entries.length ≤ 3
      ∧ entries.Pairwise (fun a b => b.score ≤ a.score)
      ∧ (∀ e ∈ entries, ∃ r, r ∈ db3.embeddings ∧ r.collection_id = 1
          ∧ e = toEntry scoreFst [1] r ∧ e.metadata = r.metadata)
      ∧ (3 = 1 → ∀ r ∈ db3.embeddings, r.collection_id = 1 →
          ∃ e, entries = [e] ∧ ∀ s ∈ db3.embeddings, s.collection_id = 1 →
            scoreFst s.embedding [1] ≤ e.score) :=
  C3_similar_by_vector_ranking scoreFst regNone collQ db3 [1] 3 1 rfl

/-- C4 (counterexample as stated): an item whose id is the empty string
appears in its own `similar_by_id` results — `if skip_id:` is false for
the empty string, so the exclusion predicate is not added. -/
theorem C4_empty_id_counterexample :
    (Collection.similar_by_id scoreFst regNone collQ db4 "" 10).val
      = .ok [⟨"", 1, none, none⟩]
    ∧ (⟨"", 1, none, none⟩ : Entry).id = "" :=
  ⟨by rfl, rfl⟩

/-- C4 (amended): for every NONEMPTY id string, `similar_by_id` passes
`skip_id=id`, the where clause gains `id != ?`, and no returned entry
carries the given id; for the empty string Python truthiness skips the
exclusion filter. -/
theorem C4_self_exclusion_nonempty_id (cos : List ℚ → List ℚ → ℚ)
    (reg : Registry) (c : Collection) (db : Db) (i : String) (number : Nat)
    (entries : List Entry) (hi : i ≠ "")
    (hok : (Collection.similar_by_id cos reg c db i number).val = .ok entries) :
    ∀ e ∈ entries, e.id ≠ i := by
  unfold Collection.similar_by_id at hok
  dsimp only at hok
  cases hv : (Collection.id reg c db).val with
  | error e =>
    rw [hv] at hok
    dsimp only at hok
    cases hok
  | ok cid =>
    rw [hv] at hok
    dsimp only at hok
    cases hfil : (Collection.id reg c db).db.embeddings.filter
        (fun row => row.collection_id == cid && row.id == i) with
    | nil =>
      rw [hfil] at hok
      dsimp only at hok
      cases hok
    | cons first rest =>
      rw [hfil] at hok
      dsimp only at hok
      obtain ⟨cid2, hcid2, hmem⟩ :=
        similar_by_vector_entries_mem cos reg _ _ _ _ _ entries hok
      intro e he
      obtain ⟨r, hrdb, hmq, rfl⟩ := hmem e he
      exact matchesQuery_skip cid2 i r hi hmq

/-- C4 (witness for the amended theorem): querying by the stored id "q"
returns only the other item. -/
theorem C4_self_exclusion_nonempty_id_witness :
    ("q" ≠ "") ∧ ∀ e ∈ [(⟨"b", 2, none, none⟩ : Entry)], e.id ≠ "q" :=
  ⟨by decide,
   C4_self_exclusion_nonempty_id scoreFst regNone collQ db4b "q" 10
     [⟨"b", 2, none, none⟩] (by decide) (by rfl)⟩

/-- C8: `similar_by_id` on an id with no stored row in the collection
raises ValueError("ID not found") right after the single embeddings
read: the effect trace is exactly that read, and in particular no
similarity query is issued. -/
theorem C8_not_found_no_query (cos : List ℚ → List ℚ → ℚ) (reg : Registry)
    (c : Collection) (db : Db) (i : String) (number : Nat) (cid : Nat)
    (hid : c._id = some cid)
    (habs : ∀ r ∈ db.embeddings, ¬(r.collection_id = cid ∧ r.id = i)) :
    (Collection.similar_by_id cos reg c db i number).val
      = .error "ID not found"
    ∧ (Collection.similar_by_id cos reg c db i number).eff
      = [.readEmbeddings]
    ∧ Effect.queryEmbeddings
      ∉ (Collection.similar_by_id cos reg c db i number).eff := by
  have hfil : db.embeddings.filter
      (fun row => row.collection_id == cid && row.id == i) = [] := by
    rw [List.filter_eq_nil_iff]
    intro r hr
    simpa using habs r hr
  unfold Collection.similar_by_id
  rw [id_cached reg c db cid hid]
  dsimp only
  rw [hfil]
  refine ⟨rfl, rfl, ?_⟩
  dsimp only
  decide

/-- C8 (witness): a collection holding "q" and "b" only. -/
theorem C8_not_found_no_query_witness :
    (Collection.similar_by_id scoreFst regNone collQ db4b "missing" 10).val
      = .error "ID not found"
    ∧ (Collection.similar_by_id scoreFst regNone collQ db4b "missing" 10).eff
      = [.readEmbeddings]
    ∧ Effect.queryEmbeddings
      ∉ (Collection.similar_by_id scoreFst regNone collQ db4b "missing" 10).eff :=
  C8_not_found_no_query scoreFst regNone collQ db4b "missing" 10 1 rfl (by decide)
